import Mathlib

/-!
Verification development for the VoxAnalyze call-record confidentiality
pipeline: the regex PII masker (maskWithRegex / maskSegmentText), the
AI-assisted masker's control flow (maskPII), the crypto envelope
(encryptForStorage / decryptForStorage), the summary redaction pass
(redactSensitiveSummary), the analysis score normalization, and the
access-control behaviour of the transcription and delete-record handlers.

Strings are modelled as lists of characters; JavaScript regular-expression
matching (leftmost position, greedy backtracking, ASCII word boundaries)
is given by a small executable engine, and each regex literal of the
source is transcribed into the engine's syntax.
-/

namespace VoxAnalyze

/-- ASCII word character, as used by the JavaScript regex assertion \b
(JavaScript character class \w without the unicode flag). -/
def isWordChar (c : Char) : Bool :=
  (('A' ≤ c && c ≤ 'Z') || ('a' ≤ c && c ≤ 'z') || ('0' ≤ c && c ≤ '9') || c = '_')

/-- ASCII decimal digit, the JavaScript regex class \d. -/
def isDigitChar (c : Char) : Bool := '0' ≤ c && c ≤ '9'

/-- Whitespace, the JavaScript regex class \s (common ASCII members). -/
def isSpaceChar (c : Char) : Bool :=
  c = ' ' || c = '\t' || c = '\n' || c = '\r' || c = '\x0b' || c = '\x0c'

/-- Syntax of the regular expressions appearing in the source: character
classes, concatenation, prioritized alternation, greedy counted repetition
of a character class, and the word-boundary assertion \b. -/
inductive RE where
  | eps : RE
  | chr (p : Char → Bool) : RE
  | cat (a b : RE) : RE
  | alt (a b : RE) : RE
  | rep (p : Char → Bool) (lo : Nat) (hi : Option Nat) : RE
  | wb : RE

/-- Decrement an optional repetition bound. -/
def decOpt : Option Nat → Option Nat
  | none => none
  | some n => some (n - 1)

/-- True when the repetition bound is exhausted. -/
def hiZero : Option Nat → Bool
  | some 0 => true
  | _ => false

/-- True when a \b assertion holds between the previous character and the
rest of the input (exactly one side is a word character). -/
def atBoundary (prev : Option Char) (s : List Char) : Bool :=
  (match prev with | none => false | some c => isWordChar c)
    != (match s with | [] => false | c :: _ => isWordChar c)

/-- Greedy matching of a counted character-class repetition, in
continuation-passing style: consume as many class characters as the upper
bound allows, backtracking to shorter counts (down to the lower bound)
when the continuation fails. -/
def repMatch (p : Char → Bool) :
    Nat → Option Nat → Option Char → List Char →
    (Option Char → List Char → Option (List Char)) → Option (List Char)
  | lo, _, prev, [], k => if lo = 0 then k prev [] else none
  | lo, hi, prev, c :: rest, k =>
    if hiZero hi then (if lo = 0 then k prev (c :: rest) else none)
    else if p c then
      match repMatch p (lo - 1) (decOpt hi) (some c) rest k with
      | some r => some r
      | none => if lo = 0 then k prev (c :: rest) else none
    else
      if lo = 0 then k prev (c :: rest) else none

/-- Backtracking matcher in continuation-passing style.  The match is
anchored at the current position; prev is the character just before that
position (for \b).  Returns the continuation's value for the first
alternative, in greedy preference order, that lets it succeed — the same
match JavaScript's backtracking engine selects. -/
def matchRE : RE → Option Char → List Char →
    (Option Char → List Char → Option (List Char)) → Option (List Char)
  | .eps, prev, s, k => k prev s
  | .chr _, _, [], _ => none
  | .chr p, _, c :: rest, k => if p c then k (some c) rest else none
  | .cat a b, prev, s, k => matchRE a prev s (fun p2 s2 => matchRE b p2 s2 k)
  | .alt a b, prev, s, k =>
    match matchRE a prev s k with
    | some r => some r
    | none => matchRE b prev s k
  | .rep p lo hi, prev, s, k => repMatch p lo hi prev s k
  | .wb, prev, s, k => if atBoundary prev s then k prev s else none

/-- Attempt a match anchored at the current position; on success return
the remaining input after the matched span. -/
def findMatch (re : RE) (prev : Option Char) (s : List Char) :
    Option (List Char) :=
  matchRE re prev s (fun _ rest => some rest)

/-- The character preceding the continuation point after emitting a
matched span (the last character of the span in the original string,
mirroring how JavaScript replacement scans the original text). -/
def lastCharOf (m : List Char) (prev : Option Char) : Option Char :=
  match m.getLast? with
  | some c => some c
  | none => prev

/-- One pass of global regex replacement (String.prototype.replace with
the g flag): scan left to right, at each position try an anchored match;
replace a successful nonempty match and resume after it, otherwise copy
one character and advance. -/
def replaceGo (re : RE) (repl : List Char → List Char) :
    Nat → Option Char → List Char → List Char
  | 0, _, s => s
  | fuel + 1, prev, s =>
    match findMatch re prev s with
    | some rest =>
      let consumed := s.length - rest.length
      if consumed = 0 then
        match s with
        | [] => []
        | c :: cs => c :: replaceGo re repl fuel (some c) cs
      else
        repl (s.take consumed) ++
          replaceGo re repl fuel (lastCharOf (s.take consumed) prev) rest
    | none =>
      match s with
      | [] => []
      | c :: cs => c :: replaceGo re repl fuel (some c) cs

/-- Global regex replacement over a whole string. -/
def replaceAll (re : RE) (repl : List Char → List Char) (s : List Char) :
    List Char :=
  replaceGo re repl (s.length + 1) none s

/-- A single-character literal. -/
def lit1 (c : Char) : RE := .chr (fun d => d = c)

/-- A literal string as a regex. -/
def litStr : List Char → RE
  | [] => .eps
  | c :: cs => .cat (lit1 c) (litStr cs)

/-- An optional (greedy) subexpression. -/
def reOpt (r : RE) : RE := .alt r .eps

/-- Counted repetition of \d. -/
def digitRep (lo : Nat) (hi : Option Nat) : RE := .rep isDigitChar lo hi

/-- The subexpression \s* . -/
def wsRep : RE := .rep isSpaceChar 0 none

/-- Character class [A-Za-z0-9._%+-] (email local part). -/
def emailLocalChar (c : Char) : Bool :=
  (('A' ≤ c && c ≤ 'Z') || ('a' ≤ c && c ≤ 'z') || ('0' ≤ c && c ≤ '9') ||
   c = '.' || c = '_' || c = '%' || c = '+' || c = '-')

/-- Character class [A-Za-z0-9.-] (email domain). -/
def emailDomainChar (c : Char) : Bool :=
  (('A' ≤ c && c ≤ 'Z') || ('a' ≤ c && c ≤ 'z') || ('0' ≤ c && c ≤ '9') ||
   c = '.' || c = '-')

/-- Character class [A-Z|a-z] as written in the source (letters and the
literal bar character). -/
def emailTldChar (c : Char) : Bool :=
  (('A' ≤ c && c ≤ 'Z') || ('a' ≤ c && c ≤ 'z') || c = '|')

/-- Regex \b[A-Za-z0-9._%+-]+@[A-Za-z0-9.-]+\.[A-Z|a-z]{2,}\b from
maskWithRegex (email rule). -/
def reEmail : RE :=
  .cat .wb (.cat (.rep emailLocalChar 1 none)
    (.cat (lit1 '@') (.cat (.rep emailDomainChar 1 none)
      (.cat (lit1 '.') (.cat (.rep emailTldChar 2 none) .wb)))))

/-- Regex (?:\+370|8)?\s*(?:\(\d+\))?\s*\d{1,3}\s*\d{2,3}\s*\d{3,4}\s*\d{0,4}
from maskWithRegex (first phone rule). -/
def rePhone1 : RE :=
  .cat (reOpt (.alt (litStr ('+' :: '3' :: '7' :: '0' :: [])) (lit1 '8')))
    (.cat wsRep
      (.cat (reOpt (.cat (lit1 '(') (.cat (digitRep 1 none) (lit1 ')'))))
        (.cat wsRep
          (.cat (digitRep 1 (some 3))
            (.cat wsRep
              (.cat (digitRep 2 (some 3))
                (.cat wsRep
                  (.cat (digitRep 3 (some 4))
                    (.cat wsRep (digitRep 0 (some 4)))))))))))

/-- Regex \b\d{3}\s*\d{3}\s*\d{4}\b from maskWithRegex (second phone
rule). -/
def rePhone2 : RE :=
  .cat .wb (.cat (digitRep 3 (some 3))
    (.cat wsRep (.cat (digitRep 3 (some 3))
      (.cat wsRep (.cat (digitRep 4 (some 4)) .wb)))))

/-- Regex \b\d{8,10}\b from maskWithRegex (third phone rule). -/
def rePhone3 : RE := .cat .wb (.cat (digitRep 8 (some 10)) .wb)

/-- Regex \b\d{6}-?\d{5}\b from maskWithRegex (person-code rule). -/
def rePersonCode : RE :=
  .cat .wb (.cat (digitRep 6 (some 6))
    (.cat (reOpt (lit1 '-')) (.cat (digitRep 5 (some 5)) .wb)))

/-- Character class [-\s] (card-group separator). -/
def cardSepChar (c : Char) : Bool := c = '-' || isSpaceChar c

/-- Regex \b\d{4}[-\s]?\d{4}[-\s]?\d{4}[-\s]?\d{4}\b from maskWithRegex
(card rule). -/
def reCard : RE :=
  .cat .wb (.cat (digitRep 4 (some 4))
    (.cat (reOpt (.chr cardSepChar)) (.cat (digitRep 4 (some 4))
      (.cat (reOpt (.chr cardSepChar)) (.cat (digitRep 4 (some 4))
        (.cat (reOpt (.chr cardSepChar)) (.cat (digitRep 4 (some 4)) .wb)))))))

/-- Regex \bLT\d{2}\d{5}\d{11}\b from maskWithRegex (Lithuanian IBAN
rule). -/
def reLtAcct : RE :=
  .cat .wb (.cat (lit1 'L') (.cat (lit1 'T')
    (.cat (digitRep 2 (some 2)) (.cat (digitRep 5 (some 5))
      (.cat (digitRep 11 (some 11)) .wb)))))

/-- Regex \b\d{16,20}\b from maskWithRegex (long account-number rule). -/
def reAcct : RE := .cat .wb (.cat (digitRep 16 (some 20)) .wb)

/-- Replacement callback of the third phone rule: the matched text is
replaced by [PHONE] when it has at least 8 characters. -/
def phone3Repl (m : List Char) : List Char :=
  if 8 ≤ m.length then "[PHONE]".data else m

/-- Replacement callback of the long account-number rule. -/
def acctRepl (m : List Char) : List Char :=
  if 16 ≤ m.length then "[ACCOUNT_NUMBER]".data else m

/-- The eight-rule regex masking chain applied by maskWithRegex to the
top-level text and by maskSegmentText to each segment, in source order. -/
def maskText (s : List Char) : List Char :=
  let s1 := replaceAll reEmail (fun _ => "[EMAIL]".data) s
  let s2 := replaceAll rePhone1 (fun _ => "[PHONE]".data) s1
  let s3 := replaceAll rePhone2 (fun _ => "[PHONE]".data) s2
  let s4 := replaceAll rePhone3 phone3Repl s3
  let s5 := replaceAll rePersonCode (fun _ => "[PERSON_CODE]".data) s4
  let s6 := replaceAll reCard (fun _ => "[CARD_NUMBER]".data) s5
  let s7 := replaceAll reLtAcct (fun _ => "[ACCOUNT_NUMBER]".data) s6
  replaceAll reAcct acctRepl s7

/-- A dialogue segment of a transcript (types.ts TranscriptionSegment).
Times are JSON numbers, modelled as integers here; no claim depends on
them. -/
structure TranscriptionSegment where
  speaker : String
  text : List Char
  startTime : Int
  endTime : Int
  deriving DecidableEq, Repr

/-- A transcript (types.ts Transcription).  The edge functions store the
timestamp as an ISO string, so it is a string here. -/
structure Transcription where
  id : String
  text : List Char
  timestamp : String
  language : String
  segments : List TranscriptionSegment
  deriving DecidableEq, Repr

/-- maskSegmentText from the PII-masking module: the same eight-rule
regex chain applied to a segment's text in isolation. -/
def maskSegmentText (s : List Char) : List Char := maskText s

/-- maskWithRegex from the PII-masking module: apply the regex chain to
the top-level text and, via maskSegmentText, to every segment's text
independently; all other fields are copied unchanged. -/
def maskWithRegex (t : Transcription) : Transcription :=
  { t with
    text := maskText t.text
    segments := t.segments.map (fun s => { s with text := maskSegmentText s.text }) }

/-- First index at which the pattern occurs in the text
(String.prototype.indexOf), or none. -/
def indexOfAux (needle : List Char) : List Char → Nat → Option Nat
  | [], i => if needle.isEmpty then some i else none
  | c :: rest, i =>
    if needle.isPrefixOf (c :: rest) then some i
    else indexOfAux needle rest (i + 1)

/-- indexOf hay needle: JavaScript hay.indexOf(needle) as an option. -/
def indexOf (hay needle : List Char) : Option Nat := indexOfAux needle hay 0

/-- Outcome of one generation call in the AI-assisted masker: a thrown
error, a timeout, or an unusable response shape are all failures; a
usable response carries the extracted text. -/
inductive GenOutcome where
  | failure : GenOutcome
  | response (text : List Char) : GenOutcome

/-- The ordered candidate model list of maskPII. -/
def piiModelNames : List String :=
  ["gemini-2.5-flash-preview-native-audio-dialog", "gemini-2.5-pro"]

/-- Drop whitespace from both ends (String.prototype.trim). -/
def trimChars (s : List Char) : List Char :=
  ((s.dropWhile isSpaceChar).reverse.dropWhile isSpaceChar).reverse

/-- A double or single quote character. -/
def isQuoteChar (c : Char) : Bool := c = '"' || c = Char.ofNat 39

/-- The response clean-up of maskPII:
trim, then remove one leading and one trailing quote
(replace of the pattern anchored-leading-quote-or-trailing-quote). -/
def cleanResponse (s : List Char) : List Char :=
  let t := trimChars s
  let t1 := match t with
    | c :: rest => if isQuoteChar c then rest else t
    | [] => t
  match t1.getLast? with
  | some c => if isQuoteChar c then t1.dropLast else t1
  | none => t1

/-- Segment reconciliation of maskPII's success path: locate the
segment's text in the original top-level text; when found, slice the
same offset range out of the masked text; otherwise mask the segment
independently with maskSegmentText. -/
def reconcileSegment (origText maskedText : List Char)
    (seg : TranscriptionSegment) : TranscriptionSegment :=
  match indexOf origText seg.text with
  | some i =>
    let maskedBeforeLen := min i maskedText.length
    let remainingLength := min seg.text.length (maskedText.length - maskedBeforeLen)
    if 0 < remainingLength then
      { seg with text := (maskedText.drop maskedBeforeLen).take remainingLength }
    else seg
  | none => { seg with text := maskSegmentText seg.text }

/-- The transcript assembled by maskPII when a model's response is
usable: the masked blob becomes the text and every segment is
reconciled against it. -/
def buildMaskedTranscription (t : Transcription) (maskedText : List Char) :
    Transcription :=
  { t with
    text := maskedText
    segments := t.segments.map (reconcileSegment t.text maskedText) }

/-- The candidate-model loop of maskPII: models are tried in order; a
failure or a response that cleans to the empty string moves on to the
next model; when every model has failed the regex fallback is applied.
The surrounding try/catch of the source recovers every model error into
this fallback, so the function is total. -/
def tryModels (gen : String → GenOutcome) :
    List String → Transcription → Transcription
  | [], t => maskWithRegex t
  | m :: rest, t =>
    match gen m with
    | .failure => tryModels gen rest t
    | .response raw =>
      let cleaned := cleanResponse raw
      if cleaned.isEmpty then tryModels gen rest t
      else buildMaskedTranscription t cleaned

/-- maskPII from the PII-masking module, parameterized by the external
generation capability. -/
def maskPII (gen : String → GenOutcome) (t : Transcription) : Transcription :=
  tryModels gen piiModelNames t

/-- Character class [A-Z0-9._%+-] with the i flag (summary email local
part); the same character set as emailLocalChar. -/
def sumLocalChar (c : Char) : Bool := emailLocalChar c

/-- Character class [A-Z0-9.-] with the i flag (summary email domain). -/
def sumDomainChar (c : Char) : Bool := emailDomainChar c

/-- Character class [A-Z]{2,} with the i flag: ASCII letters only. -/
def letterChar (c : Char) : Bool :=
  ('A' ≤ c && c ≤ 'Z') || ('a' ≤ c && c ≤ 'z')

/-- Regex \b[A-Z0-9._%+-]+@[A-Z0-9.-]+\.[A-Z]{2,}\b (case-insensitive)
from redactSensitiveSummary. -/
def reSumEmail : RE :=
  .cat .wb (.cat (.rep sumLocalChar 1 none)
    (.cat (lit1 '@') (.cat (.rep sumDomainChar 1 none)
      (.cat (lit1 '.') (.cat (.rep letterChar 2 none) .wb)))))

/-- Character class [\d\s().-] (summary phone-like body). -/
def telBodyChar (c : Char) : Bool :=
  isDigitChar c || isSpaceChar c || c = '(' || c = ')' || c = '.' || c = '-'

/-- Regex (\+?\d[\d\s().-]{6,}\d) from redactSensitiveSummary. -/
def reSumPhone : RE :=
  .cat (reOpt (lit1 '+'))
    (.cat (.chr isDigitChar)
      (.cat (.rep telBodyChar 6 none) (.chr isDigitChar)))

/-- Regex \b\d{11}\b from redactSensitiveSummary. -/
def reSumPersonCode : RE := .cat .wb (.cat (digitRep 11 (some 11)) .wb)

/-- Character class [A-Z0-9]{10,30} with the i flag. -/
def alnumChar (c : Char) : Bool := letterChar c || isDigitChar c

/-- Regex \bLT\d{2}[A-Z0-9]{10,30}\b (case-insensitive) from
redactSensitiveSummary. -/
def reSumIban : RE :=
  .cat .wb (.cat (.chr (fun c => c = 'L' || c = 'l'))
    (.cat (.chr (fun c => c = 'T' || c = 't'))
      (.cat (digitRep 2 (some 2))
        (.cat (.rep alnumChar 10 (some 30)) .wb))))

/-- Character class [A-ZĄČĘĖĮŠŲŪŽ] (Lithuanian capitals). -/
def ltUpperChar (c : Char) : Bool :=
  ('A' ≤ c && c ≤ 'Z') || c = 'Ą' || c = 'Č' || c = 'Ę' || c = 'Ė' ||
    c = 'Į' || c = 'Š' || c = 'Ų' || c = 'Ū' || c = 'Ž'

/-- Character class [a-ząčęėįšųūž] (Lithuanian lower-case letters). -/
def ltLowerChar (c : Char) : Bool :=
  ('a' ≤ c && c ≤ 'z') || c = 'ą' || c = 'č' || c = 'ę' || c = 'ė' ||
    c = 'į' || c = 'š' || c = 'ų' || c = 'ū' || c = 'ž'

/-- Regex of the two-TitleCase-words name pattern from
redactSensitiveSummary. -/
def reSumName : RE :=
  .cat .wb (.cat (.chr ltUpperChar) (.cat (.rep ltLowerChar 1 none)
    (.cat (lit1 ' ') (.cat (.chr ltUpperChar)
      (.cat (.rep ltLowerChar 1 none) .wb)))))

/-- Regex \s{2,} (whitespace runs collapsed to one space). -/
def reMultiSpace : RE := .rep isSpaceChar 2 none

/-- redactSensitiveSummary from the upload function: empty text is
returned as is; otherwise the five redaction rules run in order, then
whitespace runs are collapsed and the result is trimmed. -/
def redactSensitiveSummary (s : List Char) : List Char :=
  if s.isEmpty then s
  else
    let s1 := replaceAll reSumEmail (fun _ => "[EL. PAŠTAS]".data) s
    let s2 := replaceAll reSumPhone (fun _ => "[TEL. NR.]".data) s1
    let s3 := replaceAll reSumPersonCode (fun _ => "[ASMENS KODAS]".data) s2
    let s4 := replaceAll reSumIban (fun _ => "[IBAN]".data) s3
    let s5 := replaceAll reSumName (fun _ => "[VARDAS PAVARDĖ]".data) s4
    trimChars (replaceAll reMultiSpace (fun _ => [' ']) s5)

/-- An analysis metric entry. -/
structure Metric where
  label : String
  value : Int
  trend : String
  deriving DecidableEq, Repr

/-- The analysis document parsed from the generation capability's JSON:
every field may be absent (null or undefined). -/
structure ParsedAnalysis where
  sentimentScore : Option ℚ
  customerSatisfaction : Option ℚ
  agentPerformance : Option ℚ
  warnings : Option (List String)
  summary : Option (List Char)
  metrics : Option (List Metric)
  deriving DecidableEq, Repr

/-- The analysis value persisted to the record and returned in the
response. -/
structure AnalysisResult where
  id : String
  sentimentScore : ℚ
  customerSatisfaction : ℚ
  agentPerformance : ℚ
  warnings : List String
  summary : List Char
  metrics : List Metric
  complianceChecked : Bool
  deriving DecidableEq, Repr

/-- Score normalization of the upload function:
Math.max(0, Math.min(100, score ?? 50)). -/
def clampScore (x : Option ℚ) : ℚ := max 0 (min 100 (x.getD 50))

/-- The analysisResult object assembled by the upload function: clamped
scores, warnings defaulted to the empty array, the summary passed
through redactSensitiveSummary unconditionally, and complianceChecked
set to true.  The fresh random id is a parameter. -/
def buildAnalysisResult (rid : String) (a : ParsedAnalysis) : AnalysisResult :=
  { id := rid
    sentimentScore := clampScore a.sentimentScore
    customerSatisfaction := clampScore a.customerSatisfaction
    agentPerformance := clampScore a.agentPerformance
    warnings := a.warnings.getD []
    summary := redactSensitiveSummary (a.summary.getD [])
    metrics := a.metrics.getD []
    complianceChecked := true }

/-- Value of one hex digit, none for a non-hex character. -/
def hexVal (c : Char) : Option Nat :=
  if '0' ≤ c && c ≤ '9' then some (c.toNat - 48)
  else if 'a' ≤ c && c ≤ 'f' then some (c.toNat - 87)
  else if 'A' ≤ c && c ≤ 'F' then some (c.toNat - 55)
  else none

/-- parseInt(chunk, 16) of a one- or two-character chunk, with the NaN
result coerced to 0 by the typed-array constructor (parseInt parses the
longest valid prefix). -/
def parseHexPair (c1 : Char) (c2 : Option Char) : Nat :=
  match hexVal c1 with
  | none => 0
  | some v1 =>
    match c2 with
    | none => v1
    | some c =>
      match hexVal c with
      | none => v1
      | some v2 => v1 * 16 + v2

/-- Key-material parsing of the crypto envelope: the key string is split
into chunks of at most two characters (regex dot-dot match) and each
chunk is parsed as a base-16 integer. -/
def hexToBytes : List Char → List Nat
  | [] => []
  | [c] => [parseHexPair c none]
  | c1 :: c2 :: rest => parseHexPair c1 (some c2) :: hexToBytes rest

/-- UTF-8 encoding of one character (TextEncoder), with the byte values
written arithmetically. -/
def utf8EncodeChar (c : Char) : List Nat :=
  if c.toNat < 128 then [c.toNat]
  else if c.toNat < 2048 then [192 + c.toNat / 64, 128 + c.toNat % 64]
  else if c.toNat < 65536 then
    [224 + c.toNat / 4096, 128 + c.toNat / 64 % 64, 128 + c.toNat % 64]
  else
    [240 + c.toNat / 262144, 128 + c.toNat / 4096 % 64, 128 + c.toNat / 64 % 64,
      128 + c.toNat % 64]

/-- UTF-8 encoding of a string (TextEncoder). -/
def utf8Encode (s : List Char) : List Nat := (s.map utf8EncodeChar).flatten

/-- One step of UTF-8 decoding: consume a lead byte and its continuation
bytes, yielding the decoded character and the remaining bytes (a
malformed tail decodes to the replacement character). -/
def utf8Step (b0 : Nat) (rest : List Nat) : Char × List Nat :=
  if b0 < 128 then (Char.ofNat b0, rest)
  else if b0 < 224 then
    match rest with
    | b1 :: rest2 => (Char.ofNat ((b0 - 192) * 64 + (b1 - 128)), rest2)
    | [] => (Char.ofNat 65533, [])
  else if b0 < 240 then
    match rest with
    | b1 :: b2 :: rest3 =>
      (Char.ofNat ((b0 - 224) * 4096 + (b1 - 128) * 64 + (b2 - 128)), rest3)
    | _ => (Char.ofNat 65533, [])
  else
    match rest with
    | b1 :: b2 :: b3 :: rest4 =>
      (Char.ofNat ((b0 - 240) * 262144 + (b1 - 128) * 4096 + (b2 - 128) * 64 +
        (b3 - 128)), rest4)
    | _ => (Char.ofNat 65533, [])

/-- UTF-8 decoding (TextDecoder). -/
def utf8Decode (l : List Nat) : List Char :=
  match l with
  | [] => []
  | b0 :: rest =>
    (utf8Step b0 rest).1 :: utf8Decode (utf8Step b0 rest).2
termination_by l.length
decreasing_by
  simp only [List.length_cons]
  refine Nat.lt_succ_of_le ?hle
  unfold utf8Step
  repeat' split
  all_goals simp_all
  all_goals omega

/-- The standard base64 alphabet. -/
def b64Alphabet : List Char :=
  "ABCDEFGHIJKLMNOPQRSTUVWXYZabcdefghijklmnopqrstuvwxyz0123456789+/".data

/-- Character for a six-bit value. -/
def b64Char (n : Nat) : Char := b64Alphabet.getD n 'A'

/-- Six-bit value of an alphabet character (64 when absent; only applied
to alphabet characters by the claims). -/
def b64Val (c : Char) : Nat := b64Alphabet.indexOf c

/-- Standard base64 encoding with padding (the encoding used for the
stored envelope). -/
def base64Encode : List Nat → List Char
  | [] => []
  | [a] => [b64Char (a / 4), b64Char (a % 4 * 16), '=', '=']
  | [a, b] => [b64Char (a / 4), b64Char (a % 4 * 16 + b / 16),
      b64Char (b % 16 * 4), '=']
  | a :: b :: c :: rest =>
    b64Char (a / 4) :: b64Char (a % 4 * 16 + b / 16) ::
      b64Char (b % 16 * 4 + c / 64) :: b64Char (c % 64) :: base64Encode rest

/-- Standard base64 decoding with padding handling. -/
def base64Decode : List Char → List Nat
  | c1 :: c2 :: c3 :: c4 :: rest =>
    let v1 := b64Val c1
    let v2 := b64Val c2
    if c3 = '=' then [v1 * 4 + v2 / 16]
    else
      let v3 := b64Val c3
      if c4 = '=' then [v1 * 4 + v2 / 16, v2 % 16 * 16 + v3 / 4]
      else (v1 * 4 + v2 / 16) :: (v2 % 16 * 16 + v3 / 4) ::
        (v3 % 4 * 64 + b64Val c4) :: base64Decode rest
  | _ => []

/-- Modelled from the spec: the AES-GCM AEAD primitive invoked through
crypto.subtle is external to the repository; per the spec it provides
AES-GCM semantics (confidentiality plus an authentication tag appended
to the ciphertext, 96-bit IV).  The mode is given here in the shape of
NIST SP 800-38D, parameterized by the underlying block cipher E (a key
and a 16-byte block to a 16-byte block); the repository instantiates E
with AES.  This is the GCM reduction polynomial constant. -/
def gcmR : Nat := 0xe1000000000000000000000000000000

/-- One halving step of the GF(2^128) multiplication. -/
def gfHalf (v : Nat) : Nat := if v % 2 = 1 then v / 2 ^^^ gcmR else v / 2

/-- Loop of the GF(2^128) multiplication: i counts the remaining bits of
x, processed most significant first. -/
def gfMulGo : Nat → Nat → Nat → Nat → Nat
  | 0, _, _, z => z
  | i + 1, x, v, z =>
    gfMulGo i x (gfHalf v) (if x.testBit i then z ^^^ v else z)

/-- GF(2^128) product used by GHASH. -/
def gfMul (x y : Nat) : Nat := gfMulGo 128 x y 0

/-- Big-endian bytes of a number, k bytes wide. -/
def natToBytesBE (k n : Nat) : List Nat :=
  (List.range k).map (fun i => n / 256 ^ (k - 1 - i) % 256)

/-- Number from big-endian bytes. -/
def bytesToNatBE (bs : List Nat) : Nat := bs.foldl (fun acc b => acc * 256 + b) 0

/-- Split bytes into 16-byte blocks, zero-padding the last. -/
def chunks16Go : Nat → List Nat → List (List Nat)
  | 0, _ => []
  | _, [] => []
  | fuel + 1, l =>
    (l.take 16 ++ List.replicate (16 - (l.take 16).length) 0) ::
      chunks16Go fuel (l.drop 16)

/-- All 16-byte blocks of a byte list. -/
def chunks16 (l : List Nat) : List (List Nat) := chunks16Go l.length l

/-- GHASH fold over blocks. -/
def ghashFold (h : Nat) (blocks : List (List Nat)) : Nat :=
  blocks.foldl (fun y b => gfMul (y ^^^ bytesToNatBE b) h) 0

/-- GCM authentication tag over a ciphertext (no associated data, as in
the source): GHASH under H = E(K, 0^128) of the padded ciphertext and
the length block, whitened with E(K, J0) where J0 = IV ‖ 0^31 ‖ 1. -/
def gcmTag (E : List Nat → List Nat → List Nat) (kb iv ct : List Nat) :
    List Nat :=
  let h := bytesToNatBE (E kb (List.replicate 16 0))
  let lenBlock := natToBytesBE 8 0 ++ natToBytesBE 8 (ct.length * 8)
  let s := ghashFold h (chunks16 ct ++ [lenBlock])
  natToBytesBE 16 (bytesToNatBE (E kb (iv ++ [0, 0, 0, 1])) ^^^ s)

/-- CTR keystream of GCM: blocks E(K, IV ‖ counter) for counter 2, 3, …,
truncated to the requested length. -/
def keystream (E : List Nat → List Nat → List Nat) (kb iv : List Nat)
    (len : Nat) : List Nat :=
  (((List.range ((len + 15) / 16)).map
    (fun i => E kb (iv ++ natToBytesBE 4 (i + 2)))).flatten).take len

/-- GCM encryption: CTR ciphertext followed by the 16-byte tag. -/
def gcmEncrypt (E : List Nat → List Nat → List Nat) (kb iv pt : List Nat) :
    List Nat :=
  let ct := List.zipWith (fun a b => a ^^^ b) pt (keystream E kb iv pt.length)
  ct ++ gcmTag E kb iv ct

/-- GCM decryption: fails (as the OperationError of the platform) when
the data cannot hold a 16-byte tag or when the recomputed tag differs;
otherwise returns the CTR plaintext. -/
def gcmDecrypt (E : List Nat → List Nat → List Nat) (kb iv data : List Nat) :
    Except String (List Nat) :=
  if data.length < 16 then .error "OperationError"
  else
    let ct := data.take (data.length - 16)
    let tag := data.drop (data.length - 16)
    if tag = gcmTag E kb iv ct then
      .ok (List.zipWith (fun a b => a ^^^ b) ct (keystream E kb iv ct.length))
    else .error "OperationError"

/-- encryptForStorage of the upload function, with the process-wide key
configuration, the fresh random IV and the block cipher as explicit
parameters: no key means pass-through; a key is hex-parsed and imported
(an import failure is caught and falls back to returning the plaintext,
which the source logs as unencrypted storage); otherwise the envelope is
base64(IV ‖ ciphertext-with-tag). -/
def encryptForStorage (E : List Nat → List Nat → List Nat)
    (cfg : Option (List Char)) (iv : List Nat) (text : List Char) :
    List Char :=
  match cfg with
  | none => text
  | some keyHex =>
    let kb := hexToBytes keyHex
    if kb.length = 16 ∨ kb.length = 24 ∨ kb.length = 32 then
      base64Encode (iv ++ gcmEncrypt E kb iv (utf8Encode text))
    else text

/-- decryptForStorage of the transcription function: hex-parse the key,
base64-decode the envelope, split the first 12 bytes as IV and the rest
as ciphertext, AEAD-decrypt, and decode the plaintext to a string; every
failure is caught and rethrown with the message prefix
"Failed to decrypt data: ". -/
def decryptForStorage (E : List Nat → List Nat → List Nat)
    (ciphertext : List Char) (encryptionKey : List Char) :
    Except String (List Char) :=
  let kb := hexToBytes encryptionKey
  if kb.length = 16 ∨ kb.length = 24 ∨ kb.length = 32 then
    let combined := base64Decode ciphertext
    match gcmDecrypt E kb (combined.take 12) (combined.drop 12) with
    | .ok pt => .ok (utf8Decode pt)
    | .error e => .error ("Failed to decrypt data: " ++ e)
  else .error "Failed to decrypt data: key import failed"

/-- JSON escape of one character. -/
def jsonEscapeChar (c : Char) : List Char :=
  if c = '"' then ['\\', '"']
  else if c = '\\' then ['\\', '\\']
  else if c = '\n' then ['\\', 'n']
  else if c = '\r' then ['\\', 'r']
  else if c = '\t' then ['\\', 't']
  else if c.toNat < 32 then
    ['\\', 'u', '0', '0', "0123456789abcdef".data.getD (c.toNat / 16) '0',
      "0123456789abcdef".data.getD (c.toNat % 16) '0']
  else [c]

/-- A JSON string literal. -/
def jsonString (s : List Char) : List Char :=
  '"' :: (s.map jsonEscapeChar).flatten ++ ['"']

/-- JSON.stringify of one segment, in object-literal key order. -/
def serializeSegment (s : TranscriptionSegment) : List Char :=
  "\x7b\"speaker\":".data ++ jsonString s.speaker.data ++
  ",\"text\":".data ++ jsonString s.text ++
  ",\"startTime\":".data ++ (toString s.startTime).data ++
  ",\"endTime\":".data ++ (toString s.endTime).data ++ "\x7d".data

/-- JSON.stringify of the transcription record persisted by the upload
function, in object-literal key order (id, text, timestamp, language,
segments). -/
def serializeTranscription (t : Transcription) : List Char :=
  "\x7b\"id\":".data ++ jsonString t.id.data ++
  ",\"text\":".data ++ jsonString t.text ++
  ",\"timestamp\":".data ++ jsonString t.timestamp.data ++
  ",\"language\":".data ++ jsonString t.language.data ++
  ",\"segments\":[".data ++
  (List.intercalate [','] (t.segments.map serializeSegment)) ++ "]\x7d".data

/-- Shape of the transcription value stored in the call_records row: the
encrypted envelope variant or the plaintext-shaped record. -/
inductive StoredTr where
  | plain (t : Transcription) : StoredTr
  | envelope (data : List Char) : StoredTr
  deriving DecidableEq, Repr

/-- The transcriptionResultForDB step of the upload function: serialize
the raw transcription (the source stores it directly, its comment noting
that PII masking was removed), encrypt, and store the envelope variant
exactly when encryption changed the text; otherwise store the
plaintext-shaped record. -/
def transcriptionResultForDB (E : List Nat → List Nat → List Nat)
    (cfg : Option (List Char)) (iv : List Nat) (raw : Transcription) :
    StoredTr :=
  let toEncrypt := serializeTranscription raw
  let enc := encryptForStorage E cfg iv toEncrypt
  if enc ≠ toEncrypt then .envelope enc else .plain raw

/-- Everything the tail of the upload pipeline persists and returns for
a processed file: the stored transcription value, the stored analysis,
the final status, and the response payload. -/
structure UploadOutcome where
  dbTranscription : StoredTr
  dbAnalysis : AnalysisResult
  dbStatus : String
  responseTranscription : Transcription
  responseAnalysis : AnalysisResult
  deriving DecidableEq, Repr

/-- The tail of the upload pipeline after transcription and analysis
have been parsed: build the stored transcription value and the analysis
result, persist both with status completed, and answer with the raw
transcription and the same analysis result. -/
def uploadFinish (E : List Nat → List Nat → List Nat)
    (cfg : Option (List Char)) (iv : List Nat) (raw : Transcription)
    (rid : String) (a : ParsedAnalysis) : UploadOutcome :=
  let ar := buildAnalysisResult rid a
  { dbTranscription := transcriptionResultForDB E cfg iv raw
    dbAnalysis := ar
    dbStatus := "completed"
    responseTranscription := raw
    responseAnalysis := ar }

/-- A call_records row, with the fields the handlers read. -/
structure CallRow where
  id : Nat
  user_id : Nat
  audio_id : String
  transcription : Option StoredTr
  deriving DecidableEq, Repr

/-- Role lookup: user_profiles.role = admin for the given user (the
single() failure of a missing profile is caught as non-admin). -/
def isAdminIn (profiles : List (Nat × String)) (u : Nat) : Bool :=
  match profiles.find? (fun pr => pr.1 = u) with
  | some pr => pr.2 = "admin"
  | none => false

/-- Row visibility of the SELECT policy installed by the
add-user-authentication migration: owner or admin. -/
def canSelect (profiles : List (Nat × String)) (u : Nat) (row : CallRow) :
    Bool :=
  row.user_id = u || isAdminIn profiles u

/-- Responses of the transcription GET handler. -/
inductive TResp where
  | unauthorized : TResp
  | notFound : TResp
  | decryptFailed : TResp
  | okPlain (t : Transcription) : TResp
  | okDecrypted (s : List Char) : TResp
  | okEnvelope (data : List Char) : TResp
  deriving DecidableEq, Repr

/-- The transcription GET handler: authenticate, fetch the single row
through the caller-scoped client (so the RLS SELECT policy filters what
is visible, and an invisible or missing row is the same 404), 404 when
the row has no transcription, decrypt the envelope variant when a key is
configured (500 on decryption failure), and otherwise answer 200 with
the stored value. -/
def transcriptionGet (E : List Nat → List Nat → List Nat)
    (encKey : Option (List Char)) (profiles : List (Nat × String))
    (db : List CallRow) (caller : Option Nat) (recordId : Nat) : TResp :=
  match caller with
  | none => .unauthorized
  | some u =>
    match db.find? (fun r => r.id = recordId && canSelect profiles u r) with
    | none => .notFound
    | some r =>
      match r.transcription with
      | none => .notFound
      | some (.plain t) => .okPlain t
      | some (.envelope d) =>
        match encKey with
        | none => .okEnvelope d
        | some k =>
          match decryptForStorage E d k with
          | .ok s => .okDecrypted s
          | .error _ => .decryptFailed

/-- Responses of the delete-record handler. -/
inductive DResp where
  | unauthorized : DResp
  | badRequest : DResp
  | notFound : DResp
  | forbidden : DResp
  | okDeleted : DResp
  | blocked : DResp
  deriving DecidableEq, Repr

/-- The delete-record handler (service-role configuration): authenticate,
require an id, fetch the row with the admin client (404 when absent),
forbid a caller who is neither owner nor admin, delete the row (storage
clean-up is best-effort and does not change the response), and when zero
rows were deleted re-check existence — a row that no longer exists is
success, a row that still exists is a blocked-deletion error.  The store
is modelled by two snapshots because it may change between the fetch and
the delete. -/
def deleteRecord (profiles : List (Nat × String))
    (dbFetch dbDelete : List CallRow) (caller : Option Nat)
    (recordId : Option Nat) : DResp :=
  match caller with
  | none => .unauthorized
  | some u =>
    match recordId with
    | none => .badRequest
    | some rid =>
      match dbFetch.find? (fun r => r.id = rid) with
      | none => .notFound
      | some r =>
        if r.user_id ≠ u ∧ ¬ (isAdminIn profiles u = true) then .forbidden
        else
          let deleted := dbDelete.filter (fun r2 => r2.id = rid)
          if deleted.isEmpty then
            match (dbDelete.filter (fun r2 => r2.id ≠ rid)).find?
                (fun r2 => r2.id = rid) with
            | some _ => .blocked
            | none => .okDeleted
          else .okDeleted

/-- A character that some masking rule must consume: a decimal digit or
the at sign.  Every rule of the chain requires at least one such
character in any span it matches. -/
def goodC (c : Char) : Bool := isDigitChar c || c = '@'

/-- A regex every match of which consumes at least one goodC
character. -/
inductive Needs : RE → Prop where
  | chr (p : Char → Bool) (h : ∀ c, p c = true → goodC c = true) :
      Needs (.chr p)
  | catL (a b : RE) (h : Needs a) : Needs (.cat a b)
  | catR (a b : RE) (h : Needs b) : Needs (.cat a b)
  | alt (a b : RE) (ha : Needs a) (hb : Needs b) : Needs (.alt a b)
  | rep (p : Char → Bool) (lo : Nat) (hi : Option Nat) (hlo : 1 ≤ lo)
      (h : ∀ c, p c = true → goodC c = true) : Needs (.rep p lo hi)

/-- A model failure in the sense of the candidate loop of maskPII: the
generation call threw, timed out, or yielded a response whose extracted
text cleans to the empty string. -/
def genFails (gen : String → GenOutcome) (m : String) : Prop :=
  match gen m with
  | .failure => True
  | .response raw => cleanResponse raw = []

/-- A concrete block cipher instance for witnesses: every block maps to
sixteen zero bytes. -/
def zeroE : List Nat → List Nat → List Nat := fun _ _ => List.replicate 16 0

/-- A concrete 64-hex-digit (256-bit) key string. -/
def key0 : List Char := List.replicate 64 '0'

/-- A concrete 12-byte IV. -/
def iv0 : List Nat := List.replicate 12 0

/-- A concrete PII-free transcript. -/
def t0 : Transcription :=
  { id := "t0", text := "labas".data, timestamp := "2024-01-01T00:00:00.000Z"
    language := "lt", segments := [] }

/-- A concrete transcript containing a national person code. -/
def pii0 : Transcription :=
  { id := "r1", text := "mano asmens kodas 12345678901".data
    timestamp := "2024-01-01T00:00:00.000Z", language := "lt", segments := [] }

/-- A parsed analysis with every field absent. -/
def a0 : ParsedAnalysis :=
  { sentimentScore := none, customerSatisfaction := none
    agentPerformance := none, warnings := none, summary := none
    metrics := none }

/-- A concrete record owned by user 10. -/
def rowA : CallRow :=
  { id := 1, user_id := 10, audio_id := "a1"
    transcription := some (.plain t0) }

/-- A concrete profile table in which user 30 is an admin. -/
def profiles0 : List (Nat × String) := [(30, "admin")]

/-- Lower clamp bound. -/
theorem clampScore_nonneg (x : Option ℚ) : 0 ≤ clampScore x :=
  le_max_left 0 _

/-- Upper clamp bound. -/
theorem clampScore_le (x : Option ℚ) : clampScore x ≤ 100 :=
  max_le (by norm_num) (min_le_left _ _)

/-- A missing score clamps to the default 50. -/
theorem clampScore_none : clampScore none = 50 := by
  norm_num [clampScore]

/-- C3: the regex masker's concrete category coverage.  The source's own
rule comments document 11-digit person codes going to [PERSON_CODE] and
16-digit card groups going to [CARD_NUMBER], but the earlier phone rule
consumes any run of six or more digits first: the person-code input
masks to [PHONE] (the digit sequence does disappear), and the card input
masks to a [PHONE] followed by an unmasked residue "1111"; only the
email case behaves as documented. -/
theorem claim_C3 :
    maskText "mano asmens kodas 12345678901".data
        = "mano asmens kodas[PHONE]".data ∧
    maskText "el. paštas jonas@example.com".data
        = "el. paštas [EMAIL]".data ∧
    maskText "kortelė 4111 1111 1111 1111".data
        = "kortelė[PHONE] 1111".data :=
  ⟨by decide, by decide, by decide⟩

/-- C4: when every candidate model fails (throws, times out, or returns
text that cleans to empty), maskPII returns exactly the regex fallback
maskWithRegex of the same transcript; the model is a total function, the
source's surrounding try/catch recovering every model error into this
fallback. -/
theorem claim_C4 (gen : String → GenOutcome) (t : Transcription)
    (h : ∀ m ∈ piiModelNames, genFails gen m) :
    maskPII gen t = maskWithRegex t := by
  have h1 := h "gemini-2.5-flash-preview-native-audio-dialog"
    (by simp [piiModelNames])
  have h2 := h "gemini-2.5-pro" (by simp [piiModelNames])
  show tryModels gen piiModelNames t = maskWithRegex t
  simp only [piiModelNames, tryModels]
  revert h1 h2
  unfold genFails
  cases hg1 : gen "gemini-2.5-flash-preview-native-audio-dialog" with
  | failure =>
    cases hg2 : gen "gemini-2.5-pro" with
    | failure => intro _ _; simp [tryModels]
    | response raw2 =>
      intro _ h2
      simp [tryModels, h2]
  | response raw1 =>
    intro h1
    cases hg2 : gen "gemini-2.5-pro" with
    | failure => intro _; simp [tryModels, h1]
    | response raw2 =>
      intro h2
      simp [tryModels, h1, h2]

/-- Witness for C4 at a concrete transcript and an always-failing
generation capability. -/
theorem claim_C4_witness :
    maskPII (fun _ => GenOutcome.failure) t0
      = maskWithRegex t0 :=
  claim_C4 (fun _ => GenOutcome.failure) t0 (fun m _ => by simp [genFails])

/-- C7: the summary persisted with the record and the summary returned
in the response are both exactly redactSensitiveSummary of the
model-generated summary, and they are the same analysis value; the
redaction takes no input besides the parsed analysis, so it is
independent of anything that happened to the transcript. -/
theorem claim_C7 (E : List Nat → List Nat → List Nat)
    (cfg : Option (List Char)) (iv : List Nat) (raw : Transcription)
    (rid : String) (a : ParsedAnalysis) :
    (uploadFinish E cfg iv raw rid a).dbAnalysis.summary
        = redactSensitiveSummary (a.summary.getD []) ∧
    (uploadFinish E cfg iv raw rid a).responseAnalysis.summary
        = redactSensitiveSummary (a.summary.getD []) ∧
    (uploadFinish E cfg iv raw rid a).dbAnalysis
        = (uploadFinish E cfg iv raw rid a).responseAnalysis :=
  ⟨rfl, rfl, rfl⟩

/-- C10: every persisted and returned score lies in [0, 100], the
persisted and returned analysis agree, and a missing score defaults
to 50. -/
theorem claim_C10 (E : List Nat → List Nat → List Nat)
    (cfg : Option (List Char)) (iv : List Nat) (raw : Transcription)
    (rid : String) (a : ParsedAnalysis) :
    (0 ≤ (uploadFinish E cfg iv raw rid a).dbAnalysis.sentimentScore ∧
      (uploadFinish E cfg iv raw rid a).dbAnalysis.sentimentScore ≤ 100) ∧
    (0 ≤ (uploadFinish E cfg iv raw rid a).dbAnalysis.customerSatisfaction ∧
      (uploadFinish E cfg iv raw rid a).dbAnalysis.customerSatisfaction ≤ 100) ∧
    (0 ≤ (uploadFinish E cfg iv raw rid a).dbAnalysis.agentPerformance ∧
      (uploadFinish E cfg iv raw rid a).dbAnalysis.agentPerformance ≤ 100) ∧
    (uploadFinish E cfg iv raw rid a).responseAnalysis
        = (uploadFinish E cfg iv raw rid a).dbAnalysis ∧
    (a.sentimentScore = none →
      (uploadFinish E cfg iv raw rid a).dbAnalysis.sentimentScore = 50) ∧
    (a.customerSatisfaction = none →
      (uploadFinish E cfg iv raw rid a).dbAnalysis.customerSatisfaction = 50) ∧
    (a.agentPerformance = none →
      (uploadFinish E cfg iv raw rid a).dbAnalysis.agentPerformance = 50) := by
  refine ⟨⟨clampScore_nonneg _, clampScore_le _⟩,
    ⟨clampScore_nonneg _, clampScore_le _⟩,
    ⟨clampScore_nonneg _, clampScore_le _⟩, rfl, ?_, ?_, ?_⟩ <;>
    intro hnone <;>
    simp [uploadFinish, buildAnalysisResult, hnone, clampScore_none]

/-- Witness for C10 at a concrete analysis with every score absent. -/
theorem claim_C10_witness :
    (uploadFinish zeroE none iv0 t0 "w10" a0).dbAnalysis.sentimentScore = 50 ∧
    0 ≤ (uploadFinish zeroE none iv0 t0 "w10" a0).dbAnalysis.sentimentScore :=
  ⟨(claim_C10 zeroE none iv0 t0 "w10" a0).2.2.2.2.1 rfl,
    (claim_C10 zeroE none iv0 t0 "w10" a0).1.1⟩

/-- Counterexample for C8 as stated: on the transcription read path an
authenticated non-admin non-owner (user 20, record owned by user 10)
receives exactly the record-not-found response, identical to the
response for a genuinely absent record — there is no forbidden response
on this path, so no ForbiddenError distinguishable from not-found is
ever produced for the reader. -/
theorem claim_C8_counterexample :
    transcriptionGet zeroE none profiles0 [rowA] (some 20) 1
        = TResp.notFound ∧
    transcriptionGet zeroE none profiles0 [] (some 20) 1
        = TResp.notFound := by
  constructor <;> decide

/-- C8 amended: the delete path implements the authorization matrix —
a non-admin non-owner receives Forbidden while the owner and an admin
succeed; the read path performs no in-function ownership check: the
owner and an admin succeed through row visibility, but a non-admin
non-owner receives the not-found response rather than a ForbiddenError. -/
theorem claim_C8 (E : List Nat → List Nat → List Nat)
    (encKey : Option (List Char)) (profiles : List (Nat × String))
    (r : CallRow) (t : Transcription) (a b : Nat)
    (htr : r.transcription = some (.plain t))
    (hb : b ≠ r.user_id) (hbAdmin : isAdminIn profiles b = false)
    (haAdmin : isAdminIn profiles a = true) :
    transcriptionGet E encKey profiles [r] (some r.user_id) r.id
        = TResp.okPlain t ∧
    transcriptionGet E encKey profiles [r] (some a) r.id = TResp.okPlain t ∧
    transcriptionGet E encKey profiles [r] (some b) r.id = TResp.notFound ∧
    deleteRecord profiles [r] [r] (some b) (some r.id) = DResp.forbidden ∧
    deleteRecord profiles [r] [r] (some r.user_id) (some r.id)
        = DResp.okDeleted ∧
    deleteRecord profiles [r] [r] (some a) (some r.id) = DResp.okDeleted := by
  have hb' : (r.user_id = b) = False := by
    simp [(Ne.symm hb)]
  refine ⟨?_, ?_, ?_, ?_, ?_, ?_⟩ <;>
    simp [transcriptionGet, deleteRecord, canSelect, List.find?, htr, hb',
      hbAdmin, haAdmin, Ne.symm hb, List.filter]

/-- Witness for C8 at the concrete record, owner 10, admin 30,
stranger 20. -/
theorem claim_C8_witness :
    transcriptionGet zeroE none profiles0 [rowA] (some rowA.user_id) rowA.id
        = TResp.okPlain t0 ∧
    transcriptionGet zeroE none profiles0 [rowA] (some 30) rowA.id
        = TResp.okPlain t0 ∧
    transcriptionGet zeroE none profiles0 [rowA] (some 20) rowA.id
        = TResp.notFound ∧
    deleteRecord profiles0 [rowA] [rowA] (some 20) (some rowA.id)
        = DResp.forbidden ∧
    deleteRecord profiles0 [rowA] [rowA] (some rowA.user_id) (some rowA.id)
        = DResp.okDeleted ∧
    deleteRecord profiles0 [rowA] [rowA] (some 30) (some rowA.id)
        = DResp.okDeleted :=
  claim_C8 zeroE none profiles0 rowA t0 30 20 rfl (by decide) (by decide)
    (by decide)

/-- Counterexample for C9 as stated: a delete request for a nonexistent
id fails with the not-found error response, not with success. -/
theorem claim_C9_counterexample :
    deleteRecord profiles0 [] [] (some 10) (some 7) = DResp.notFound ∧
    DResp.notFound ≠ DResp.okDeleted := by
  constructor <;> decide

/-- C9 amended: once the row has been found and the caller authorized,
deletion completes as success regardless of the store's state at delete
time — in particular when the row already vanished between the fetch and
the delete (zero rows deleted, re-check finds nothing); but a request
for an id that is absent at fetch time is answered with the not-found
error, so deletion is not idempotent across whole requests. -/
theorem claim_C9 (profiles : List (Nat × String)) (r : CallRow)
    (dbDelete : List CallRow) (u : Nat)
    (hu : u = r.user_id ∨ isAdminIn profiles u = true) :
    deleteRecord profiles [r] dbDelete (some u) (some r.id)
        = DResp.okDeleted := by
  have hcond : ¬ (r.user_id ≠ u ∧ ¬ (isAdminIn profiles u = true)) := by
    rcases hu with h | h
    · intro hc; exact hc.1 (by rw [h])
    · intro hc; exact hc.2 h
  have hf : List.find? (fun _ : CallRow => false) dbDelete = none := by
    rw [List.find?_eq_none]; intro x _; simp
  dsimp only [deleteRecord]
  rw [List.find?_cons_of_pos _ (by simp)]
  dsimp only []
  rw [if_neg hcond]
  rcases hEmpty : (dbDelete.filter (fun r2 => decide (r2.id = r.id))).isEmpty
      with _ | _
  · simp [hEmpty]
  · simp [hEmpty, hf]

/-- Witness for C9: the owner deletes a record that is already gone from
the store at delete time, and the request completes as success. -/
theorem claim_C9_witness :
    deleteRecord profiles0 [rowA] [] (some 10) (some rowA.id)
        = DResp.okDeleted :=
  claim_C9 profiles0 rowA [] 10 (Or.inl (by decide))

/-- Decoding inverts the base64 alphabet on six-bit values. -/
theorem b64Val_b64Char : ∀ x : Fin 64, b64Val (b64Char x.val) = x.val := by decide

/-- Alphabet characters are not padding. -/
theorem b64Char_ne_pad : ∀ x : Fin 64, b64Char x.val ≠ '=' := by decide

/-- Wrapper on Nat. -/
theorem b64Val_of_lt (x : Nat) (h : x < 64) : b64Val (b64Char x) = x :=
  b64Val_b64Char ⟨x, h⟩

/-- Wrapper on Nat. -/
theorem b64Char_ne_pad_of_lt (x : Nat) (h : x < 64) : b64Char x ≠ '=' :=
  b64Char_ne_pad ⟨x, h⟩

/-- base64 decoding inverts encoding on byte lists. -/
theorem base64_rt : ∀ (l : List Nat), (∀ x ∈ l, x < 256) →
    base64Decode (base64Encode l) = l
  | [], _ => rfl
  | [a], h => by
    have ha : a < 256 := h a (by simp)
    have h1 := b64Val_of_lt (a / 4) (by omega)
    have h2 := b64Val_of_lt (a % 4 * 16) (by omega)
    simp only [base64Encode, base64Decode, if_pos, h1, h2]
    have : a / 4 * 4 + a % 4 * 16 / 16 = a := by omega
    rw [this]
  | [a, b], h => by
    have ha : a < 256 := h a (by simp)
    have hb : b < 256 := h b (by simp)
    have h1 := b64Val_of_lt (a / 4) (by omega)
    have h2 := b64Val_of_lt (a % 4 * 16 + b / 16) (by omega)
    have h3 := b64Val_of_lt (b % 16 * 4) (by omega)
    have hne3 := b64Char_ne_pad_of_lt (b % 16 * 4) (by omega)
    simp only [base64Encode, base64Decode, if_neg hne3, if_pos, h1, h2, h3]
    have e1 : a / 4 * 4 + (a % 4 * 16 + b / 16) / 16 = a := by omega
    have e2 : (a % 4 * 16 + b / 16) % 16 * 16 + b % 16 * 4 / 4 = b := by omega
    rw [e1, e2]
  | a :: b :: c :: d :: rest, h => by
    have ha : a < 256 := h a (by simp)
    have hb : b < 256 := h b (by simp)
    have hc : c < 256 := h c (by simp)
    have h1 := b64Val_of_lt (a / 4) (by omega)
    have h2 := b64Val_of_lt (a % 4 * 16 + b / 16) (by omega)
    have h3 := b64Val_of_lt (b % 16 * 4 + c / 64) (by omega)
    have h4 := b64Val_of_lt (c % 64) (by omega)
    have hne3 := b64Char_ne_pad_of_lt (b % 16 * 4 + c / 64) (by omega)
    have hne4 := b64Char_ne_pad_of_lt (c % 64) (by omega)
    have ih := base64_rt (d :: rest) (fun x hx => h x (List.mem_cons_of_mem a (List.mem_cons_of_mem b (List.mem_cons_of_mem c hx))))
    simp only [base64Encode, base64Decode, if_neg hne3, if_neg hne4, h1, h2, h3, h4, ih]
    have e1 : a / 4 * 4 + (a % 4 * 16 + b / 16) / 16 = a := by omega
    have e2 : (a % 4 * 16 + b / 16) % 16 * 16 + (b % 16 * 4 + c / 64) / 4 = b := by omega
    have e3 : (b % 16 * 4 + c / 64) % 4 * 64 + c % 64 = c := by omega
    rw [e1, e2, e3]
  | [a, b, c], h => by
    have ha : a < 256 := h a (by simp)
    have hb : b < 256 := h b (by simp)
    have hc : c < 256 := h c (by simp)
    have h1 := b64Val_of_lt (a / 4) (by omega)
    have h2 := b64Val_of_lt (a % 4 * 16 + b / 16) (by omega)
    have h3 := b64Val_of_lt (b % 16 * 4 + c / 64) (by omega)
    have h4 := b64Val_of_lt (c % 64) (by omega)
    have hne3 := b64Char_ne_pad_of_lt (b % 16 * 4 + c / 64) (by omega)
    have hne4 := b64Char_ne_pad_of_lt (c % 64) (by omega)
    simp only [base64Encode, base64Decode, if_neg hne3, if_neg hne4, h1, h2, h3, h4]
    have e1 : a / 4 * 4 + (a % 4 * 16 + b / 16) / 16 = a := by omega
    have e2 : (a % 4 * 16 + b / 16) % 16 * 16 + (b % 16 * 4 + c / 64) / 4 = b := by omega
    have e3 : (b % 16 * 4 + c / 64) % 4 * 64 + c % 64 = c := by omega
    rw [e1, e2, e3]


/-- Every character's code point is below 0x110000. -/
theorem char_toNat_lt (c : Char) : c.toNat < 1114112 := by
  rcases c.valid with h | ⟨_, h⟩
  · exact lt_trans h (by norm_num)
  · exact h

/-- UTF-8 bytes are bytes. -/
theorem utf8EncodeChar_lt (c : Char) : ∀ x ∈ utf8EncodeChar c, x < 256 := by
  have hc := char_toNat_lt c
  intro x hx
  by_cases h1 : c.toNat < 128
  · simp only [utf8EncodeChar, if_pos h1] at hx
    simp at hx; omega
  · by_cases h2 : c.toNat < 2048
    · simp only [utf8EncodeChar, if_neg h1, if_pos h2] at hx
      simp at hx
      rcases hx with h | h <;> omega
    · by_cases h3 : c.toNat < 65536
      · simp only [utf8EncodeChar, if_neg h1, if_neg h2, if_pos h3] at hx
        simp at hx
        rcases hx with h | h | h <;> omega
      · simp only [utf8EncodeChar, if_neg h1, if_neg h2, if_neg h3] at hx
        simp at hx
        rcases hx with h | h | h | h <;> omega

/-- All bytes of an encoded string are bytes. -/
theorem utf8Encode_lt (s : List Char) : ∀ x ∈ utf8Encode s, x < 256 := by
  intro x hx
  simp only [utf8Encode, List.mem_flatten, List.mem_map] at hx
  obtain ⟨l, ⟨c, _, rfl⟩, hxl⟩ := hx
  exact utf8EncodeChar_lt c x hxl

/-- Decoding a character's UTF-8 bytes in front of any tail yields the
character followed by the decoded tail. -/
theorem utf8_decode_encode_cons (c : Char) (bs : List Nat) :
    utf8Decode (utf8EncodeChar c ++ bs) = c :: utf8Decode bs := by
  have hc : Char.ofNat c.toNat = c := Char.ofNat_toNat c
  by_cases h1 : c.toNat < 128
  · simp only [utf8EncodeChar, if_pos h1, List.cons_append, List.nil_append]
    rw [utf8Decode]
    simp only [utf8Step, if_pos h1, hc]
  · by_cases h2 : c.toNat < 2048
    · simp only [utf8EncodeChar, if_neg h1, if_pos h2, List.cons_append,
        List.nil_append]
      rw [utf8Decode]
      simp only [utf8Step, if_neg (by omega : ¬ 192 + c.toNat / 64 < 128),
        if_pos (by omega : 192 + c.toNat / 64 < 224)]
      have e : (192 + c.toNat / 64 - 192) * 64 + (128 + c.toNat % 64 - 128)
          = c.toNat := by omega
      rw [e, hc]
    · by_cases h3 : c.toNat < 65536
      · simp only [utf8EncodeChar, if_neg h1, if_neg h2, if_pos h3,
          List.cons_append, List.nil_append]
        rw [utf8Decode]
        simp only [utf8Step, if_neg (by omega : ¬ 224 + c.toNat / 4096 < 128),
          if_neg (by omega : ¬ 224 + c.toNat / 4096 < 224),
          if_pos (by omega : 224 + c.toNat / 4096 < 240)]
        have e : (224 + c.toNat / 4096 - 224) * 4096 +
            (128 + c.toNat / 64 % 64 - 128) * 64 + (128 + c.toNat % 64 - 128)
            = c.toNat := by omega
        rw [e, hc]
      · simp only [utf8EncodeChar, if_neg h1, if_neg h2, if_neg h3,
          List.cons_append, List.nil_append]
        rw [utf8Decode]
        simp only [utf8Step, if_neg (by omega : ¬ 240 + c.toNat / 262144 < 128),
          if_neg (by omega : ¬ 240 + c.toNat / 262144 < 224),
          if_neg (by omega : ¬ 240 + c.toNat / 262144 < 240)]
        have e : (240 + c.toNat / 262144 - 240) * 262144 +
            (128 + c.toNat / 4096 % 64 - 128) * 4096 +
            (128 + c.toNat / 64 % 64 - 128) * 64 + (128 + c.toNat % 64 - 128)
            = c.toNat := by omega
        rw [e, hc]

/-- UTF-8 decoding inverts encoding. -/
theorem utf8_rt : ∀ s : List Char, utf8Decode (utf8Encode s) = s
  | [] => by
    rw [show utf8Encode [] = ([] : List Nat) from rfl]
    rw [utf8Decode]
  | c :: s => by
    have ih := utf8_rt s
    show utf8Decode ((List.map utf8EncodeChar (c :: s)).flatten) = c :: s
    rw [List.map_cons, List.flatten_cons, utf8_decode_encode_cons]
    exact congrArg (c :: ·) ih


/-- Length of the big-endian byte rendering. -/
theorem natToBytesBE_length (k n : Nat) : (natToBytesBE k n).length = k := by
  simp [natToBytesBE]

/-- The big-endian byte rendering produces bytes. -/
theorem natToBytesBE_lt (k n : Nat) : ∀ x ∈ natToBytesBE k n, x < 256 := by
  intro x hx
  simp only [natToBytesBE, List.mem_map] at hx
  obtain ⟨i, _, rfl⟩ := hx
  exact Nat.mod_lt _ (by norm_num)

/-- The keystream has exactly the requested length. -/
theorem keystream_length (E : List Nat → List Nat → List Nat)
    (hE : ∀ kb b, (E kb b).length = 16) (kb iv : List Nat) (len : Nat) :
    (keystream E kb iv len).length = len := by
  unfold keystream
  rw [List.length_take, List.length_flatten, List.map_map]
  have hrep : (List.range ((len + 15) / 16)).map
      (List.length ∘ fun i => E kb (iv ++ natToBytesBE 4 (i + 2)))
      = List.replicate ((len + 15) / 16) 16 := by
    rw [List.eq_replicate_iff]
    refine ⟨by simp, ?_⟩
    intro x hx
    simp only [List.mem_map, Function.comp] at hx
    obtain ⟨i, _, rfl⟩ := hx
    exact hE _ _
  rw [hrep, List.sum_replicate, smul_eq_mul]
  omega

/-- Keystream bytes are bytes. -/
theorem keystream_lt (E : List Nat → List Nat → List Nat)
    (hEb : ∀ kb b, ∀ x ∈ E kb b, x < 256) (kb iv : List Nat) (len : Nat) :
    ∀ x ∈ keystream E kb iv len, x < 256 := by
  intro x hx
  unfold keystream at hx
  have hx2 := List.mem_of_mem_take hx
  simp only [List.mem_flatten, List.mem_map] at hx2
  obtain ⟨l, ⟨i, _, rfl⟩, hxl⟩ := hx2
  exact hEb _ _ x hxl

/-- XOR of bytes is a byte. -/
theorem zipWith_xor_lt : ∀ (l1 l2 : List Nat), (∀ x ∈ l1, x < 256) →
    (∀ x ∈ l2, x < 256) →
    ∀ x ∈ List.zipWith (fun a b => a ^^^ b) l1 l2, x < 256
  | [], _, _, _ => by simp
  | _ :: _, [], _, _ => by simp
  | a :: l1, b :: l2, h1, h2 => by
    intro x hx
    simp only [List.zipWith_cons_cons, List.mem_cons] at hx
    rcases hx with rfl | hx
    · have ha : a < 2 ^ 8 := by have := h1 a (by simp); omega
      have hb : b < 2 ^ 8 := by have := h2 b (by simp); omega
      have := Nat.xor_lt_two_pow ha hb
      omega
    · exact zipWith_xor_lt l1 l2 (fun y hy => h1 y (by simp [hy]))
        (fun y hy => h2 y (by simp [hy])) x hx

/-- XOR-ing with the same keystream twice gives back the plaintext. -/
theorem zipWith_xor_cancel : ∀ (pt ks : List Nat), pt.length ≤ ks.length →
    List.zipWith (fun a b => a ^^^ b)
      (List.zipWith (fun a b => a ^^^ b) pt ks) ks = pt
  | [], _, _ => by simp
  | p :: pt, k :: ks, h => by
    simp only [List.zipWith_cons_cons]
    rw [zipWith_xor_cancel pt ks (by simpa using h)]
    congr 1
    exact Nat.xor_cancel_right k p
  | p :: pt, [], h => by simp at h

/-- The GCM tag is 16 bytes. -/
theorem gcmTag_length (E : List Nat → List Nat → List Nat) (kb iv ct : List Nat) :
    (gcmTag E kb iv ct).length = 16 := natToBytesBE_length 16 _

/-- GCM decryption inverts GCM encryption under the same block cipher,
key and IV. -/
theorem gcm_rt (E : List Nat → List Nat → List Nat)
    (hE : ∀ kb b, (E kb b).length = 16) (kb iv pt : List Nat) :
    gcmDecrypt E kb iv (gcmEncrypt E kb iv pt) = .ok pt := by
  simp only [gcmEncrypt, gcmDecrypt]
  have hks := keystream_length E hE kb iv pt.length
  have hct : (List.zipWith (fun a b => a ^^^ b) pt
      (keystream E kb iv pt.length)).length = pt.length := by
    rw [List.length_zipWith, hks, min_self]
  set ct := List.zipWith (fun a b => a ^^^ b) pt (keystream E kb iv pt.length)
    with hctdef
  have hlen : (ct ++ gcmTag E kb iv ct).length = pt.length + 16 := by
    rw [List.length_append, hct, gcmTag_length]
  rw [if_neg (by omega)]
  have hsub : (ct ++ gcmTag E kb iv ct).length - 16 = ct.length := by
    rw [hlen, hct]; omega
  rw [hsub, List.take_left, List.drop_left, if_pos rfl, hct]
  rw [hctdef]
  rw [zipWith_xor_cancel pt _ (by rw [hks])]


/-- Every byte of a GCM encryption output is a byte. -/
theorem gcmEncrypt_lt (E : List Nat → List Nat → List Nat)
    (hEb : ∀ kb b, ∀ x ∈ E kb b, x < 256) (kb iv pt : List Nat)
    (hpt : ∀ x ∈ pt, x < 256) :
    ∀ x ∈ gcmEncrypt E kb iv pt, x < 256 := by
  intro x hx
  simp only [gcmEncrypt, List.mem_append] at hx
  rcases hx with hx | hx
  · exact zipWith_xor_lt pt _ hpt (keystream_lt E hEb kb iv _) x hx
  · exact natToBytesBE_lt 16 _ x hx

/-- The whole envelope roundtrip: decrypting what encryptForStorage
produced under a configured valid key returns exactly the original
plaintext string. -/
theorem envelope_rt (E : List Nat → List Nat → List Nat)
    (hE : ∀ kb b, (E kb b).length = 16)
    (hEb : ∀ kb b, ∀ x ∈ E kb b, x < 256)
    (keyHex : List Char)
    (hkey : (hexToBytes keyHex).length = 16 ∨ (hexToBytes keyHex).length = 24 ∨
      (hexToBytes keyHex).length = 32)
    (iv : List Nat) (hiv : iv.length = 12) (hivb : ∀ x ∈ iv, x < 256)
    (P : List Char) :
    decryptForStorage E (encryptForStorage E (some keyHex) iv P) keyHex
      = .ok P := by
  simp only [encryptForStorage, decryptForStorage]
  rw [if_pos hkey, if_pos hkey]
  have hbytes : ∀ x ∈ iv ++ gcmEncrypt E (hexToBytes keyHex) iv (utf8Encode P),
      x < 256 := by
    intro x hx
    rcases List.mem_append.1 hx with hx | hx
    · exact hivb x hx
    · exact gcmEncrypt_lt E hEb _ iv _ (utf8Encode_lt P) x hx
  rw [base64_rt _ hbytes]
  have htake : (iv ++ gcmEncrypt E (hexToBytes keyHex) iv
      (utf8Encode P)).take 12 = iv := by
    rw [← hiv, List.take_left]
  have hdrop : (iv ++ gcmEncrypt E (hexToBytes keyHex) iv
      (utf8Encode P)).drop 12 = gcmEncrypt E (hexToBytes keyHex) iv
      (utf8Encode P) := by
    rw [← hiv, List.drop_left]
  rw [htake, hdrop, gcm_rt E hE]
  show Except.ok (utf8Decode (utf8Encode P)) = Except.ok P
  rw [utf8_rt]

/-- C2: for every plaintext P and valid 256-bit key K (64 hex digits
parsing to 32 key bytes), decrypting the envelope that encryptForStorage
produced for P under K returns exactly P, for every block cipher E the
platform AEAD may use and every fresh 12-byte IV. -/
theorem claim_C2 (E : List Nat → List Nat → List Nat)
    (hE : ∀ kb b, (E kb b).length = 16)
    (hEb : ∀ kb b, ∀ x ∈ E kb b, x < 256)
    (keyHex : List Char) (hkey : (hexToBytes keyHex).length = 32)
    (iv : List Nat) (hiv : iv.length = 12) (hivb : ∀ x ∈ iv, x < 256)
    (P : List Char) :
    decryptForStorage E (encryptForStorage E (some keyHex) iv P) keyHex
      = .ok P :=
  envelope_rt E hE hEb keyHex (Or.inr (Or.inr hkey)) iv hiv hivb P

/-- Witness for C2 at a concrete plaintext, the all-zero 64-digit hex
key, the zero IV and a concrete block cipher. -/
theorem claim_C2_witness :
    decryptForStorage zeroE
      (encryptForStorage zeroE (some key0) iv0 "slaptas tekstas".data) key0
      = .ok "slaptas tekstas".data :=
  claim_C2 zeroE (fun _ _ => by simp [zeroE])
    (fun _ _ x hx => by simp [zeroE] at hx; omega)
    key0 (by decide) iv0 (by decide)
    (fun x hx => by simp [iv0] at hx; omega)
    "slaptas tekstas".data


/-- Counterexample for C6 as stated: a five-byte envelope is not
rejected with CryptoError("invalid envelope") before AEAD decryption —
there is no length validation at all; the failure comes out of the AEAD
decryption attempt and is rethrown as the generic
"Failed to decrypt data: …" error. -/
theorem claim_C6_counterexample :
    decryptForStorage zeroE (base64Encode [0, 1, 2, 3, 4]) key0
        = .error "Failed to decrypt data: OperationError" ∧
    (base64Decode (base64Encode [0, 1, 2, 3, 4])).length < 13 := by
  refine ⟨rfl, by decide⟩

/-- C6 amended: an envelope whose decoded length is under 13 bytes still
always fails to decrypt — never yielding plaintext — but the rejection
happens inside the AEAD decryption attempt (the data cannot carry the
16-byte tag), surfacing as "Failed to decrypt data: OperationError"
rather than as a dedicated CryptoError("invalid envelope") pre-check. -/
theorem claim_C6 (E : List Nat → List Nat → List Nat) (keyHex : List Char)
    (bytes : List Nat) (hb : ∀ x ∈ bytes, x < 256)
    (hlen : bytes.length < 13)
    (hk : (hexToBytes keyHex).length = 16 ∨ (hexToBytes keyHex).length = 24 ∨
      (hexToBytes keyHex).length = 32) :
    decryptForStorage E (base64Encode bytes) keyHex
        = .error "Failed to decrypt data: OperationError" := by
  simp only [decryptForStorage]
  rw [if_pos hk, base64_rt bytes hb]
  have hshort : (bytes.drop 12).length < 16 := by
    rw [List.length_drop]; omega
  simp only [gcmDecrypt, if_pos hshort]
  rfl

/-- Witness for C6 at a concrete twelve-byte envelope (an IV with not a
single ciphertext byte). -/
theorem claim_C6_witness :
    decryptForStorage zeroE (base64Encode (List.replicate 12 7)) key0
        = .error "Failed to decrypt data: OperationError" :=
  claim_C6 zeroE key0 (List.replicate 12 7) (by decide) (by decide)
    (by decide)


/-- No base64 output character is an opening brace. -/
theorem b64Char_ne_brace (n : Nat) : b64Char n ≠ '\x7b' := by
  have halpha : ∀ c ∈ b64Alphabet, c ≠ '\x7b' := by decide
  unfold b64Char List.getD
  cases hg : b64Alphabet.get? n with
  | none => simp [hg]
  | some c =>
    simp [hg]
    exact halpha c (List.get?_mem hg)

/-- A serialized transcription starts with an opening brace, so it is
never equal to a base64 envelope. -/
theorem encrypt_changes (E : List Nat → List Nat → List Nat)
    (keyHex : List Char)
    (hkey : (hexToBytes keyHex).length = 16 ∨ (hexToBytes keyHex).length = 24 ∨
      (hexToBytes keyHex).length = 32)
    (iv : List Nat) (hiv : iv.length = 12) (raw : Transcription) :
    encryptForStorage E (some keyHex) iv (serializeTranscription raw)
      ≠ serializeTranscription raw := by
  simp only [encryptForStorage]
  rw [if_pos hkey]
  match iv, hiv with
  | i1 :: i2 :: i3 :: rest, _ =>
    intro heq
    have h1 : (base64Encode ((i1 :: i2 :: i3 :: rest) ++
        gcmEncrypt E (hexToBytes keyHex) (i1 :: i2 :: i3 :: rest)
          (utf8Encode (serializeTranscription raw)))).head?
        = some (b64Char (i1 / 4)) := rfl
    have h2 : (serializeTranscription raw).head? = some '\x7b' := rfl
    rw [heq, h2] at h1
    exact b64Char_ne_brace (i1 / 4) (Option.some.inj h1).symm

/-- Counterexample for C1 as stated: with no key configured, the value
persisted for a transcript containing a person code is the plaintext
raw transcript itself, which differs from its PII-masked form — the raw
transcript text reaches storage. -/
theorem claim_C1_counterexample :
    (uploadFinish zeroE none iv0 pii0 "r" a0).dbTranscription
        = StoredTr.plain pii0 ∧
    maskWithRegex pii0 ≠ pii0 := by
  constructor
  · simp [uploadFinish, transcriptionResultForDB, encryptForStorage]
  · decide

/-- C1 amended: the upload pipeline persists the raw transcript, not a
masked one.  With no key configured the stored value is the
plaintext-shaped raw transcript; with a valid key configured the stored
value is an encrypted envelope whose decryption is exactly the
serialized raw transcript.  No masking is applied on the way to
storage. -/
theorem claim_C1 (E : List Nat → List Nat → List Nat)
    (hE : ∀ kb b, (E kb b).length = 16)
    (hEb : ∀ kb b, ∀ x ∈ E kb b, x < 256)
    (keyHex : List Char) (hkey : (hexToBytes keyHex).length = 32)
    (iv : List Nat) (hiv : iv.length = 12) (hivb : ∀ x ∈ iv, x < 256)
    (raw : Transcription) (rid : String) (a : ParsedAnalysis) :
    (uploadFinish E none iv raw rid a).dbTranscription
        = StoredTr.plain raw ∧
    (uploadFinish E (some keyHex) iv raw rid a).dbTranscription
        = StoredTr.envelope (encryptForStorage E (some keyHex) iv
            (serializeTranscription raw)) ∧
    decryptForStorage E (encryptForStorage E (some keyHex) iv
        (serializeTranscription raw)) keyHex
        = .ok (serializeTranscription raw) := by
  refine ⟨?_, ?_, envelope_rt E hE hEb keyHex (Or.inr (Or.inr hkey)) iv hiv
    hivb (serializeTranscription raw)⟩
  · simp [uploadFinish, transcriptionResultForDB, encryptForStorage]
  · have hne := encrypt_changes E keyHex (Or.inr (Or.inr hkey)) iv hiv raw
    simp [uploadFinish, transcriptionResultForDB, hne]

/-- Witness for C1 at a concrete transcript, key and IV. -/
theorem claim_C1_witness :
    (uploadFinish zeroE none iv0 pii0 "w1" a0).dbTranscription
        = StoredTr.plain pii0 ∧
    (uploadFinish zeroE (some key0) iv0 pii0 "w1" a0).dbTranscription
        = StoredTr.envelope (encryptForStorage zeroE (some key0) iv0
            (serializeTranscription pii0)) ∧
    decryptForStorage zeroE (encryptForStorage zeroE (some key0) iv0
        (serializeTranscription pii0)) key0
        = .ok (serializeTranscription pii0) :=
  claim_C1 zeroE (fun _ _ => by simp [zeroE])
    (fun _ _ x hx => by simp [zeroE] at hx; omega)
    key0 (by decide) iv0 (by decide)
    (fun x hx => by simp [iv0] at hx; omega)
    pii0 "w1" a0

/-- When the continuation fails on every suffix, a repetition match
fails. -/
theorem repMatch_k_none (p : Char → Bool) :
    ∀ (s : List Char) (lo : Nat) (hi : Option Nat) (prev : Option Char)
      (k : Option Char → List Char → Option (List Char)),
      (∀ p2 s2, s2 <:+ s → k p2 s2 = none) →
      repMatch p lo hi prev s k = none
  | [], lo, hi, prev, k, hk => by
    rw [repMatch]
    split
    · exact hk prev [] (List.suffix_refl [])
    · rfl
  | c :: rest, lo, hi, prev, k, hk => by
    rw [repMatch]
    have hself := hk prev (c :: rest) (List.suffix_refl _)
    have hrec : repMatch p (lo - 1) (decOpt hi) (some c) rest k = none :=
      repMatch_k_none p rest (lo - 1) (decOpt hi) (some c) k
        (fun p2 s2 hs2 => hk p2 s2 (hs2.trans (List.suffix_cons c rest)))
    split
    · split <;> simp [hself]
    · split
      · rw [hrec]
        simp [hself]
      · split <;> simp [hself]

/-- When the continuation fails on every suffix, matching fails. -/
theorem matchRE_k_none :
    ∀ (re : RE) (prev : Option Char) (s : List Char)
      (k : Option Char → List Char → Option (List Char)),
      (∀ p2 s2, s2 <:+ s → k p2 s2 = none) →
      matchRE re prev s k = none
  | .eps, prev, s, k, hk => by
    rw [matchRE]; exact hk prev s (List.suffix_refl s)
  | .chr p, prev, [], k, hk => by rw [matchRE]
  | .chr p, prev, c :: rest, k, hk => by
    rw [matchRE]
    split
    · exact hk (some c) rest (List.suffix_cons c rest)
    · rfl
  | .cat a b, prev, s, k, hk => by
    rw [matchRE]
    exact matchRE_k_none a prev s _ (fun p2 s2 hs2 =>
      matchRE_k_none b p2 s2 k (fun p3 s3 hs3 => hk p3 s3 (hs3.trans hs2)))
  | .alt a b, prev, s, k, hk => by
    rw [matchRE, matchRE_k_none a prev s k hk, matchRE_k_none b prev s k hk]
  | .rep p lo hi, prev, s, k, hk => by
    rw [matchRE]; exact repMatch_k_none p s lo hi prev k hk
  | .wb, prev, s, k, hk => by
    rw [matchRE]
    split
    · exact hk prev s (List.suffix_refl s)
    · rfl

/-- A repetition with a positive lower bound fails on input whose first
character is outside the class. -/
theorem repMatch_pos_none (p : Char → Bool) :
    ∀ (s : List Char) (lo : Nat) (hi : Option Nat) (prev : Option Char)
      (k : Option Char → List Char → Option (List Char)),
      1 ≤ lo → (∀ c ∈ s, p c = false) →
      repMatch p lo hi prev s k = none
  | [], lo, hi, prev, k, hlo, hp => by
    rw [repMatch]
    rw [if_neg (by omega)]
  | c :: rest, lo, hi, prev, k, hlo, hp => by
    rw [repMatch]
    have hpc : p c = false := hp c (by simp)
    rw [hpc]
    split
    · rw [if_neg (by omega)]
    · simp only [Bool.false_eq_true, if_false]
      rw [if_neg (by omega)]

/-- A regex that needs a goodC character cannot match inside text that
has none. -/
theorem matchRE_needs_none (re : RE) (hre : Needs re) :
    ∀ (prev : Option Char) (s : List Char)
      (k : Option Char → List Char → Option (List Char)),
      (∀ c ∈ s, goodC c = false) → matchRE re prev s k = none := by
  induction hre with
  | chr p h =>
    intro prev s k hg
    cases s with
    | nil => rw [matchRE]
    | cons c rest =>
      rw [matchRE]
      have : p c = false := by
        cases hpc : p c with
        | false => rfl
        | true => have := h c hpc; rw [hg c (by simp)] at this; cases this
      rw [this]
      simp
  | catL a b h ih =>
    intro prev s k hg
    rw [matchRE]
    exact ih prev s _ hg
  | catR a b h ih =>
    intro prev s k hg
    rw [matchRE]
    exact matchRE_k_none a prev s _ (fun p2 s2 hs2 =>
      ih p2 s2 k (fun c hc => hg c (hs2.mem hc)))
  | alt a b ha hb iha ihb =>
    intro prev s k hg
    rw [matchRE, iha prev s k hg, ihb prev s k hg]
  | rep p lo hi hlo h =>
    intro prev s k hg
    rw [matchRE]
    refine repMatch_pos_none p s lo hi prev k hlo ?_
    intro c hc
    cases hpc : p c with
    | false => rfl
    | true => have := h c hpc; rw [hg c hc] at this; cases this


/-- Global replacement with a rule that needs a goodC character is the
identity on text that has none. -/
theorem replaceGo_id (re : RE) (hre : Needs re)
    (repl : List Char → List Char) :
    ∀ (s : List Char) (fuel : Nat) (prev : Option Char),
      (∀ c ∈ s, goodC c = false) → replaceGo re repl fuel prev s = s
  | s, 0, prev, h => rfl
  | s, fuel + 1, prev, h => by
    rw [replaceGo.eq_def]
    dsimp only
    rw [show findMatch re prev s = none from
      matchRE_needs_none re hre prev s _ h]
    cases s with
    | nil => rfl
    | cons c cs =>
      exact congrArg (c :: ·) (replaceGo_id re hre repl cs fuel (some c)
        (fun x hx => h x (List.mem_cons_of_mem c hx)))

/-- Whole-string version. -/
theorem replaceAll_id (re : RE) (hre : Needs re)
    (repl : List Char → List Char) (s : List Char)
    (h : ∀ c ∈ s, goodC c = false) : replaceAll re repl s = s :=
  replaceGo_id re hre repl s (s.length + 1) none h

/-- The email rule needs its at sign. -/
theorem needs_reEmail : Needs reEmail := by
  refine Needs.catR _ _ (Needs.catR _ _ (Needs.catL _ _ (Needs.chr _ ?_)))
  intro c hc
  simp at hc
  subst hc
  decide

/-- The first phone rule needs its mandatory digits. -/
theorem needs_rePhone1 : Needs rePhone1 := by
  refine Needs.catR _ _ (Needs.catR _ _ (Needs.catR _ _ (Needs.catR _ _
    (Needs.catL _ _ (Needs.rep _ _ _ (by omega) ?_)))))
  intro c hc
  simp [goodC, hc]

/-- The second phone rule needs its digits. -/
theorem needs_rePhone2 : Needs rePhone2 := by
  refine Needs.catR _ _ (Needs.catL _ _ (Needs.rep _ _ _ (by omega) ?_))
  intro c hc
  simp [goodC, hc]

/-- The third phone rule needs its digits. -/
theorem needs_rePhone3 : Needs rePhone3 := by
  refine Needs.catR _ _ (Needs.catL _ _ (Needs.rep _ _ _ (by omega) ?_))
  intro c hc
  simp [goodC, hc]

/-- The person-code rule needs its digits. -/
theorem needs_rePersonCode : Needs rePersonCode := by
  refine Needs.catR _ _ (Needs.catL _ _ (Needs.rep _ _ _ (by omega) ?_))
  intro c hc
  simp [goodC, hc]

/-- The card rule needs its digits. -/
theorem needs_reCard : Needs reCard := by
  refine Needs.catR _ _ (Needs.catL _ _ (Needs.rep _ _ _ (by omega) ?_))
  intro c hc
  simp [goodC, hc]

/-- The Lithuanian IBAN rule needs its digits. -/
theorem needs_reLtAcct : Needs reLtAcct := by
  refine Needs.catR _ _ (Needs.catR _ _ (Needs.catR _ _ (Needs.catL _ _
    (Needs.rep _ _ _ (by omega) ?_))))
  intro c hc
  simp [goodC, hc]

/-- The long account rule needs its digits. -/
theorem needs_reAcct : Needs reAcct := by
  refine Needs.catR _ _ (Needs.catL _ _ (Needs.rep _ _ _ (by omega) ?_))
  intro c hc
  simp [goodC, hc]

/-- On text with no digit and no at sign the whole masking chain is the
identity. -/
theorem maskText_id (s : List Char) (h : ∀ c ∈ s, goodC c = false) :
    maskText s = s := by
  simp only [maskText]
  rw [replaceAll_id _ needs_reEmail _ s h,
    replaceAll_id _ needs_rePhone1 _ s h,
    replaceAll_id _ needs_rePhone2 _ s h,
    replaceAll_id _ needs_rePhone3 _ s h,
    replaceAll_id _ needs_rePersonCode _ s h,
    replaceAll_id _ needs_reCard _ s h,
    replaceAll_id _ needs_reLtAcct _ s h,
    replaceAll_id _ needs_reAcct _ s h]

/-- Counterexample for C5 as stated: applying the regex masker twice
differs from applying it once on "a@b.cc123456" — the first pass masks
the digit run to "a@b.cc[PHONE]", whose bracket creates a word boundary
after "cc" that lets the email rule match on the second pass, giving
"[EMAIL][PHONE]". -/
theorem claim_C5_counterexample :
    maskText (maskText "a@b.cc123456".data)
      ≠ maskText "a@b.cc123456".data := by
  decide

/-- C5 amended: the regex masker is not idempotent in general, because a
replacement can create a word boundary that lets the email rule re-match
on a second pass; but on any text containing neither a decimal digit nor
an at sign — in particular on the placeholder tokens the rules emit — it
is the identity, so masking is idempotent there and placeholders are
never re-matched. -/
theorem claim_C5 (s : List Char) (h : ∀ c ∈ s, goodC c = false) :
    maskText s = s ∧ maskText (maskText s) = maskText s := by
  have h1 := maskText_id s h
  exact ⟨h1, by rw [h1, h1]⟩

/-- Witness for C5 at the concatenation of the eight placeholder
tokens. -/
theorem claim_C5_witness :
    maskText "[NAME][SURNAME][PERSON_CODE][EMAIL][PHONE][ADDRESS][CARD_NUMBER][ACCOUNT_NUMBER]".data
        = "[NAME][SURNAME][PERSON_CODE][EMAIL][PHONE][ADDRESS][CARD_NUMBER][ACCOUNT_NUMBER]".data ∧
    maskText (maskText "[NAME][SURNAME][PERSON_CODE][EMAIL][PHONE][ADDRESS][CARD_NUMBER][ACCOUNT_NUMBER]".data)
        = maskText "[NAME][SURNAME][PERSON_CODE][EMAIL][PHONE][ADDRESS][CARD_NUMBER][ACCOUNT_NUMBER]".data :=
  claim_C5 "[NAME][SURNAME][PERSON_CODE][EMAIL][PHONE][ADDRESS][CARD_NUMBER][ACCOUNT_NUMBER]".data
    (by decide)

end VoxAnalyze
